import Mathlib

/-!
Verification of the gas-estimation engine and the block-body storage layer
of this repository, as a shallow embedding in Lean 4.

The two embedded source files are
`crates/rpc/rpc-eth-api/src/helpers/estimate.rs` (binary-search gas
estimation) and `crates/storage/storage-api/src/chain.rs` (block-body
reading and writing).  Pure Rust functions become Lean functions, `u64`
arithmetic becomes `Nat` with explicit `% 2 ^ 64` where the source can
wrap, fallible code returns `Except`, and the executor / database are
modelled as explicit function-valued inputs (the source treats both as
opaque, deterministic interfaces).
-/

namespace ChainStorage

/-- Chain-spec flags consulted by `read_block_bodies`
(`is_shanghai_active_at_timestamp`, `is_paris_active_at_block`). -/
structure ChainSpecM where
  is_shanghai_active_at_timestamp : Nat → Bool
  is_paris_active_at_block : Nat → Bool

/-- The fields of a block header used by `read_block_bodies`
(`header.number()` and `header.timestamp()`). -/
structure HeaderM where
  number : Nat
  timestamp : Nat
deriving DecidableEq

/-- `alloy_consensus::BlockBody<T, H>`: transactions, ommers (of header type
`HeaderM`) and an optional withdrawals list of element type `W`. -/
structure BlockBodyM (T W : Type) where
  transactions : List T
  ommers : List HeaderM
  withdrawals : Option (List W)
deriving DecidableEq

/-- The two database tables touched by `write_block_bodies` /
`read_block_bodies`: `tables::BlockOmmers` and `tables::BlockWithdrawals`,
keyed by block number.  A lookup (`seek_exact`) yields
`Except err (Option value)`: database errors are modelled by the `Except`
layer, absence of a record by `Option`. -/
structure BodyTables (W : Type) where
  ommers : Nat → Except Nat (Option (List HeaderM))
  withdrawals : Nat → Except Nat (Option (List W))

/-- Keyed insertion, modelling a successful cursor `append` of a record
under block number `n` (cursor ordering errors are not modelled: an append
is treated as a keyed write that succeeds). -/
def tableInsert {V : Type} (t : Nat → Except Nat (Option V)) (n : Nat) (v : V) :
    Nat → Except Nat (Option V) :=
  fun k => if k = n then .ok (some v) else t k

/-- `EthStorage::write_block_bodies`: for each `(block_number, body)` pair,
skip `None` bodies, append the ommers record only when `body.ommers` is
nonempty and the withdrawals record only when `body.withdrawals` is present
and nonempty. -/
def write_block_bodies {T W : Type} (tbl : BodyTables W)
    (bodies : List (Nat × Option (BlockBodyM T W))) : BodyTables W :=
  match bodies with
  | [] => tbl
  | (block_number, body?) :: rest =>
    match body? with
    | none => write_block_bodies tbl rest
    | some body =>
      let tbl1 : BodyTables W :=
        if body.ommers.isEmpty then tbl
        else { tbl with ommers := tableInsert tbl.ommers block_number body.ommers }
      let tbl2 : BodyTables W :=
        match body.withdrawals with
        | some withdrawals =>
          if withdrawals.isEmpty then tbl1
          else { tbl1 with withdrawals := tableInsert tbl1.withdrawals block_number withdrawals }
        | none => tbl1
      write_block_bodies tbl2 rest

/-- `EthStorage::read_block_bodies`: for each `(header, transactions)` input,
build a body where a Shanghai-active timestamp always yields a present
withdrawals list (the stored one if found, otherwise empty) and a
Paris-active block number yields an empty ommers list without reading the
ommers table, while pre-Paris numbers read the stored ommers (empty if no
record).  Database errors from the lookups that are performed propagate. -/
def read_block_bodies {T W : Type} (chain_spec : ChainSpecM) (tbl : BodyTables W) :
    List (HeaderM × List T) → Except Nat (List (BlockBodyM T W))
  | [] => .ok []
  | (header, transactions) :: rest =>
    match
      (if chain_spec.is_shanghai_active_at_timestamp header.timestamp then
        match tbl.withdrawals header.number with
        | .ok w => .ok (some (w.getD []))
        | .error e => .error e
      else .ok none : Except Nat (Option (List W))) with
    | .error e => .error e
    | .ok withdrawals =>
      match
        (if chain_spec.is_paris_active_at_block header.number then
          .ok []
        else
          match tbl.ommers header.number with
          | .ok o => .ok (o.getD [])
          | .error e => .error e : Except Nat (List HeaderM)) with
      | .error e => .error e
      | .ok ommers =>
        match read_block_bodies chain_spec tbl rest with
        | .error e => .error e
        | .ok tail =>
          .ok
            ({ transactions := transactions, ommers := ommers, withdrawals := withdrawals } ::
              tail)

/-- Concrete chain spec for the storage witnesses: Shanghai is active from
timestamp 100, Paris from block number 10. -/
def specW9 : ChainSpecM :=
  { is_shanghai_active_at_timestamp := fun t => decide (100 ≤ t),
    is_paris_active_at_block := fun n => decide (10 ≤ n) }

/-- Concrete tables for the storage witnesses: ommers stored for block 3,
withdrawals stored for block 12, everything else absent. -/
def tblW9 : BodyTables Nat :=
  { ommers := fun n => if n = 3 then .ok (some [{ number := 1, timestamp := 1 }]) else .ok none,
    withdrawals := fun n => if n = 12 then .ok (some [5]) else .ok none }

/-- Concrete inputs for the C9 witness: a post-Shanghai post-Paris header
(number 12) and a pre-Paris pre-Shanghai header (number 3). -/
def inputsW9 : List (HeaderM × List Nat) :=
  [({ number := 12, timestamp := 150 }, [7, 8]), ({ number := 3, timestamp := 50 }, [9])]

/-- Concrete body for the C10 witness: nonempty ommers and a nonempty
withdrawals list. -/
def bodyW10 : BlockBodyM Nat Nat :=
  { transactions := [1], ommers := [{ number := 2, timestamp := 2 }], withdrawals := some [9, 9] }

end ChainStorage

namespace EstimateGas

/-- `MIN_TRANSACTION_GAS` from `reth_chainspec` (the protocol-minimum
transaction gas, 21000). -/
def MIN_TRANSACTION_GAS : Nat := 21000

/-- `CALL_STIPEND_GAS` from the gas-oracle constants (the fixed call
stipend, 2300). -/
def CALL_STIPEND_GAS : Nat := 2300

/-- Truncation to 64 bits: the result of a Rust `u64` operation that may
wrap. -/
def u64 (n : Nat) : Nat := n % 2 ^ 64

/-- `revm` `ExecutionResult`: the tagged outcome of one executor
invocation.  Every variant carries `gas_used`; `Success` also carries
`gas_refunded`, `Revert` its output bytes, `Halt` a reason (halt reasons
are abstracted to `Nat`). -/
inductive ExecResult where
  | success (gasUsed gasRefunded : Nat)
  | revert (gasUsed : Nat) (output : List Nat)
  | halt (gasUsed : Nat) (reason : Nat)
deriving DecidableEq

/-- `ExecutionResult::gas_used()`. -/
def ExecResult.gas_used : ExecResult → Nat
  | .success g _ => g
  | .revert g _ => g
  | .halt g _ => g

/-- `ExecutionResult::is_success()`. -/
def ExecResult.is_success : ExecResult → Bool
  | .success _ _ => true
  | _ => false

/-- The RPC error type (`Self::Error` / `EthApiError`): both the error the
executor adapter itself returns from `transact` (classifiable via
`is_gas_too_high` / `is_gas_too_low`) and the user-facing errors the
estimation produces.  Payloads that the claims do not inspect are
abstracted to `Nat` codes. -/
inductive EthError where
  | gasTooHighErr (code : Nat)
  | gasTooLowErr (code : Nat)
  | otherErr (code : Nat)
  | gasRequiredExceedsAllowance (gas_limit : Nat)
  | basicOutOfGas (gas_limit : Nat)
  | revertError (output : List Nat)
  | evmHalt (reason : Nat) (gas_limit : Nat)
deriving DecidableEq

/-- `err.is_gas_too_high()`. -/
def EthError.is_gas_too_high : EthError → Bool
  | .gasTooHighErr _ => true
  | _ => false

/-- `err.is_gas_too_low()`. -/
def EthError.is_gas_too_low : EthError → Bool
  | .gasTooLowErr _ => true
  | _ => false

/-- `TxKind`: a create or a call to an address (addresses abstracted to
`Nat`). -/
inductive TxKindM where
  | create
  | call (addr : Nat)
deriving DecidableEq

/-- The fields of the transaction environment `tx_env` that
`estimate_gas_with` reads (`input()`, `kind()`, `gas_limit()`,
`gas_price()`).  Within one estimation only the gas limit is ever mutated
(via `set_gas_limit`). -/
structure TxEnvM where
  input : List Nat
  kind : TxKindM
  gas_limit : Nat
  gas_price : Nat
deriving DecidableEq

/-- The inputs of one `estimate_gas_with` call.  The executor adapter
`transact` is deterministic and, within one estimation, only the
transaction's gas limit varies between invocations, so it is modelled as a
function of the gas limit alone.  `ratio_exit h l` models the
floating-point early-exit test `(h - l) as f64 / h as f64 < 0.015` of the
binary-search loop; it is kept abstract because `f64` is outside this
embedding. -/
structure EstimateInputs where
  block_gas_limit : Nat
  tx_request_gas_limit : Option Nat
  tx_request_gas_price : Option Nat
  create_txn_env : Except EthError TxEnvM
  state_override : Option (Except EthError Unit)
  account_code : Nat → Except Nat (Option (List Nat))
  caller_gas_allowance : Except EthError Nat
  transact : Nat → Except EthError ExecResult
  ratio_exit : Nat → Nat → Bool

/-- `update_estimated_gas_range`: on `Success` the highest limit becomes the
tested limit, on `Revert` or `Halt` (any reason) the lowest limit becomes
the tested limit; always returns `Ok`.  The result pair is
`(highest_gas_limit, lowest_gas_limit)`. -/
def update_estimated_gas_range (result : ExecResult) (tx_gas_limit : Nat)
    (highest_gas_limit lowest_gas_limit : Nat) : Except EthError (Nat × Nat) :=
  match result with
  | .success _ _ => .ok (tx_gas_limit, lowest_gas_limit)
  | .revert _ _ => .ok (highest_gas_limit, tx_gas_limit)
  | .halt _ _ => .ok (highest_gas_limit, tx_gas_limit)

/-- The binary-search `while` loop of `estimate_gas_with` for every
iteration after the first: at each entry the guard
`lowest_gas_limit + 1 < highest_gas_limit` is checked, then the
relative-error early exit, then one execution at the midpoint
`(highest + lowest) / 2` (computed in `u128` in the source, hence exact)
whose outcome narrows the range. -/
def search_loop (transact : Nat → Except EthError ExecResult)
    (ratio_exit : Nat → Nat → Bool)
    (lowest_gas_limit highest_gas_limit : Nat) : Except EthError Nat :=
  if lowest_gas_limit + 1 < highest_gas_limit then
    if ratio_exit highest_gas_limit lowest_gas_limit then .ok highest_gas_limit
    else
      let mid := (highest_gas_limit + lowest_gas_limit) / 2
      match transact mid with
      | .error e =>
        if e.is_gas_too_high then search_loop transact ratio_exit lowest_gas_limit mid
        else if e.is_gas_too_low then search_loop transact ratio_exit mid highest_gas_limit
        else .error e
      | .ok res =>
        match hu : update_estimated_gas_range res mid highest_gas_limit lowest_gas_limit with
        | .ok (h, l) => search_loop transact ratio_exit l h
        | .error e => .error e
  else .ok highest_gas_limit
termination_by highest_gas_limit - lowest_gas_limit
decreasing_by
  · omega
  · omega
  · cases res with
    | success g r => simp [update_estimated_gas_range] at hu; omega
    | revert g o => simp [update_estimated_gas_range] at hu; omega
    | halt g r => simp [update_estimated_gas_range] at hu; omega

/-- The first iteration of the binary-search loop, whose midpoint is the
precomputed `min(gas_used * 3, (highest + lowest) / 2)` (the multiplication
is a `u64` operation); subsequent iterations are `search_loop`. -/
def search_loop_first (transact : Nat → Except EthError ExecResult)
    (ratio_exit : Nat → Nat → Bool)
    (gas_used lowest_gas_limit highest_gas_limit : Nat) : Except EthError Nat :=
  if lowest_gas_limit + 1 < highest_gas_limit then
    if ratio_exit highest_gas_limit lowest_gas_limit then .ok highest_gas_limit
    else
      let mid := min (u64 (gas_used * 3)) ((highest_gas_limit + lowest_gas_limit) / 2)
      match transact mid with
      | .error e =>
        if e.is_gas_too_high then search_loop transact ratio_exit lowest_gas_limit mid
        else if e.is_gas_too_low then search_loop transact ratio_exit mid highest_gas_limit
        else .error e
      | .ok res =>
        match update_estimated_gas_range res mid highest_gas_limit lowest_gas_limit with
        | .ok (h, l) => search_loop transact ratio_exit l h
        | .error e => .error e
  else .ok highest_gas_limit

/-- The optimistic gas limit
`(gas_used + gas_refund + CALL_STIPEND_GAS) * 64 / 63`, computed in `u64`
arithmetic (each addition and the multiplication can wrap). -/
def optimistic_gas_limit (gas_used gas_refund : Nat) : Nat :=
  u64 (u64 (u64 (gas_used + gas_refund) + CALL_STIPEND_GAS) * 64) / 63

/-- The search phase of `estimate_gas_with` after a successful initial
probe that ran with gas limit `probe_gas_limit` and reported `gas_used` and
`gas_refund`: initializes `highest_gas_limit` to the probe's gas limit and
`lowest_gas_limit` to `gas_used.saturating_sub(1)` (`Nat` subtraction is
saturating), executes once at the optimistic gas limit when it is below the
highest limit (propagating executor errors, otherwise narrowing the range
and updating `gas_used`), and runs the binary-search loop. -/
def search_phase (transact : Nat → Except EthError ExecResult)
    (ratio_exit : Nat → Nat → Bool)
    (probe_gas_limit gas_used gas_refund : Nat) : Except EthError Nat :=
  let highest_gas_limit := probe_gas_limit
  let lowest_gas_limit := gas_used - 1
  let optimistic := optimistic_gas_limit gas_used gas_refund
  if optimistic < highest_gas_limit then
    match transact optimistic with
    | .error e => .error e
    | .ok res =>
      match update_estimated_gas_range res optimistic highest_gas_limit lowest_gas_limit with
      | .ok (h, l) => search_loop_first transact ratio_exit res.gas_used l h
      | .error e => .error e
  else search_loop_first transact ratio_exit gas_used lowest_gas_limit highest_gas_limit

/-- Lines 84-105 of `estimate_gas_with`: the simple-transfer short-circuit
fires exactly when the transaction input is empty, the kind is a call, the
callee's code lookup succeeds returning absent or empty code, and a single
execution at `MIN_TRANSACTION_GAS` returns a successful outcome.  Code
lookup errors and execution errors make the check fall through. -/
def short_circuit_taken (I : EstimateInputs) (tx_env : TxEnvM) : Bool :=
  tx_env.input.isEmpty &&
    match tx_env.kind with
    | .call addr =>
      match I.account_code addr with
      | .ok code =>
        ((code.map List.isEmpty).getD true &&
          match I.transact MIN_TRANSACTION_GAS with
          | .ok res => res.is_success
          | .error _ => false)
      | .error _ => false
    | .create => false

/-- Lines 63-73 and 107-117 of `estimate_gas_with`: the gas limit of the
initial probe.  The ceiling is the requested gas limit capped by the block
gas limit (or the block gas limit when none was requested), further capped
by `caller_gas_allowance` when the gas price is nonzero (propagating its
error), and the probe runs at `tx_env.gas_limit().min(ceiling)`. -/
def probe_gas_limit (I : EstimateInputs) (tx_env : TxEnvM) : Except EthError Nat :=
  let highest0 : Nat :=
    match I.tx_request_gas_limit with
    | some tx_gas_limit =>
      if I.block_gas_limit < tx_gas_limit then I.block_gas_limit else tx_gas_limit
    | none => I.block_gas_limit
  if tx_env.gas_price > 0 then
    match I.caller_gas_allowance with
    | .ok allowance => .ok (min tx_env.gas_limit (min highest0 allowance))
    | .error e => .error e
  else .ok (min tx_env.gas_limit highest0)

/-- `map_out_of_gas_err`: saves the requested gas limit, re-executes with
the gas limit forced to `env_gas_limit` (the block gas limit at both call
sites) and classifies: executor errors are returned unchanged, `Success`
becomes `BasicOutOfGas` carrying the requested limit, `Revert` a revert
error carrying the output, `Halt` a halt error carrying the reason and the
requested limit. -/
def map_out_of_gas_err (transact : Nat → Except EthError ExecResult)
    (env_gas_limit req_gas_limit : Nat) : EthError :=
  match transact env_gas_limit with
  | .error e => e
  | .ok res =>
    match res with
    | .success _ _ => .basicOutOfGas req_gas_limit
    | .revert _ output => .revertError output
    | .halt _ reason => .evmHalt reason req_gas_limit

/-- Lines 107-253 of `estimate_gas_with` (after the short-circuit): the
initial probe and its error/outcome classification, then the search phase.
The out-of-gas disambiguator is taken as the explicit argument `oog`
(instantiated with `map_out_of_gas_err` in `estimate_gas_with`) so that its
use sites - both guarded by "the request specified a gas limit or a gas
price" - are visible in the definition. -/
def estimate_after_short_circuit
    (oog : (Nat → Except EthError ExecResult) → Nat → Nat → EthError)
    (I : EstimateInputs) (tx_env : TxEnvM) : Except EthError Nat :=
  match probe_gas_limit I tx_env with
  | .error e => .error e
  | .ok pl =>
    match I.transact pl with
    | .error e =>
      if e.is_gas_too_high &&
          (I.tx_request_gas_limit.isSome || I.tx_request_gas_price.isSome) then
        .error (oog I.transact I.block_gas_limit pl)
      else if e.is_gas_too_low then
        .error (.gasRequiredExceedsAllowance pl)
      else .error e
    | .ok res =>
      match res with
      | .halt _ reason => .error (.evmHalt reason pl)
      | .revert _ output =>
        if I.tx_request_gas_limit.isSome || I.tx_request_gas_price.isSome then
          .error (oog I.transact I.block_gas_limit pl)
        else .error (.revertError output)
      | .success gas_used gas_refunded =>
        search_phase I.transact I.ratio_exit pl gas_used gas_refunded

/-- `estimate_gas_with`, generalized over the disambiguator.  The EVM flag
mutations (`disable_eip3607`, `disable_base_fee`, clearing the nonce) have
no observable effect in this embedding because the executor is opaque.
`create_txn_env` runs before the state overrides are applied, then the
short-circuit, then the general path. -/
def estimate_gas_with_d
    (oog : (Nat → Except EthError ExecResult) → Nat → Nat → EthError)
    (I : EstimateInputs) : Except EthError Nat :=
  match I.create_txn_env with
  | .error e => .error e
  | .ok tx_env =>
    match I.state_override with
    | some (.error e) => .error e
    | _ =>
      if short_circuit_taken I tx_env then .ok MIN_TRANSACTION_GAS
      else estimate_after_short_circuit oog I tx_env

/-- `EstimateCall::estimate_gas_with`. -/
def estimate_gas_with (I : EstimateInputs) : Except EthError Nat :=
  estimate_gas_with_d map_out_of_gas_err I

/-- The `(lowest_gas_limit, highest_gas_limit)` pairs of `search_loop` in
chronological order: the pair at each executed iteration entry (guard
true), followed by the final pair when the loop stops (guard false, early
exit, or a propagated executor error).  This mirrors `search_loop` line by
line and only records the bounds it already computes. -/
def search_loop_states (transact : Nat → Except EthError ExecResult)
    (ratio_exit : Nat → Nat → Bool)
    (lowest_gas_limit highest_gas_limit : Nat) : List (Nat × Nat) :=
  if lowest_gas_limit + 1 < highest_gas_limit then
    if ratio_exit highest_gas_limit lowest_gas_limit then
      [(lowest_gas_limit, highest_gas_limit), (lowest_gas_limit, highest_gas_limit)]
    else
      let mid := (highest_gas_limit + lowest_gas_limit) / 2
      match transact mid with
      | .error e =>
        if e.is_gas_too_high then
          (lowest_gas_limit, highest_gas_limit) ::
            search_loop_states transact ratio_exit lowest_gas_limit mid
        else if e.is_gas_too_low then
          (lowest_gas_limit, highest_gas_limit) ::
            search_loop_states transact ratio_exit mid highest_gas_limit
        else [(lowest_gas_limit, highest_gas_limit), (lowest_gas_limit, highest_gas_limit)]
      | .ok res =>
        match hu : update_estimated_gas_range res mid highest_gas_limit lowest_gas_limit with
        | .ok (h, l) =>
          (lowest_gas_limit, highest_gas_limit) :: search_loop_states transact ratio_exit l h
        | .error _ =>
          [(lowest_gas_limit, highest_gas_limit), (lowest_gas_limit, highest_gas_limit)]
  else [(lowest_gas_limit, highest_gas_limit)]
termination_by highest_gas_limit - lowest_gas_limit
decreasing_by
  · omega
  · omega
  · cases res with
    | success g r => simp [update_estimated_gas_range] at hu; omega
    | revert g o => simp [update_estimated_gas_range] at hu; omega
    | halt g r => simp [update_estimated_gas_range] at hu; omega

/-- The bound pairs of `search_loop_first` (the first binary-search
iteration, with midpoint `min(u64 (gas_used * 3), (highest + lowest) / 2)`)
followed by those of the remaining iterations. -/
def search_loop_first_states (transact : Nat → Except EthError ExecResult)
    (ratio_exit : Nat → Nat → Bool)
    (gas_used lowest_gas_limit highest_gas_limit : Nat) : List (Nat × Nat) :=
  if lowest_gas_limit + 1 < highest_gas_limit then
    if ratio_exit highest_gas_limit lowest_gas_limit then
      [(lowest_gas_limit, highest_gas_limit), (lowest_gas_limit, highest_gas_limit)]
    else
      let mid := min (u64 (gas_used * 3)) ((highest_gas_limit + lowest_gas_limit) / 2)
      match transact mid with
      | .error e =>
        if e.is_gas_too_high then
          (lowest_gas_limit, highest_gas_limit) ::
            search_loop_states transact ratio_exit lowest_gas_limit mid
        else if e.is_gas_too_low then
          (lowest_gas_limit, highest_gas_limit) ::
            search_loop_states transact ratio_exit mid highest_gas_limit
        else [(lowest_gas_limit, highest_gas_limit), (lowest_gas_limit, highest_gas_limit)]
      | .ok res =>
        match update_estimated_gas_range res mid highest_gas_limit lowest_gas_limit with
        | .ok (h, l) =>
          (lowest_gas_limit, highest_gas_limit) :: search_loop_states transact ratio_exit l h
        | .error _ =>
          [(lowest_gas_limit, highest_gas_limit), (lowest_gas_limit, highest_gas_limit)]
  else [(lowest_gas_limit, highest_gas_limit)]

/-- The bound pairs of the whole search phase in chronological order,
starting from the initial bounds `(gas_used - 1, probe_gas_limit)`, through
the bounds produced by the optimistic-guess probe (when it runs), and then
every binary-search iteration. -/
def search_phase_states (transact : Nat → Except EthError ExecResult)
    (ratio_exit : Nat → Nat → Bool)
    (probe_gas_limit gas_used gas_refund : Nat) : List (Nat × Nat) :=
  let highest_gas_limit := probe_gas_limit
  let lowest_gas_limit := gas_used - 1
  let optimistic := optimistic_gas_limit gas_used gas_refund
  if optimistic < highest_gas_limit then
    match transact optimistic with
    | .error _ => [(lowest_gas_limit, highest_gas_limit)]
    | .ok res =>
      match update_estimated_gas_range res optimistic highest_gas_limit lowest_gas_limit with
      | .ok (h, l) =>
        (lowest_gas_limit, highest_gas_limit) ::
          search_loop_first_states transact ratio_exit res.gas_used l h
      | .error _ => [(lowest_gas_limit, highest_gas_limit)]
  else
    (lowest_gas_limit, highest_gas_limit) ::
      search_loop_first_states transact ratio_exit gas_used lowest_gas_limit highest_gas_limit


/-- An integer version of the relative-error early-exit test used for the
concrete example runs: `(h - l) / h < 0.015` holds for the values probed
here exactly when `(h - l) * 200 < 3 * h` (`0.015 = 3 / 200`, and the `f64`
arithmetic is exact at these magnitudes). -/
def ratio_exit_rat : Nat → Nat → Bool := fun h l => (h - l) * 200 < 3 * h

/-- Concrete input refuting claim C1 as stated: the one successful
execution is at gas limit 10, every other limit fails with a gas-too-high
classification error. -/
def inputsX1 : EstimateInputs where
  block_gas_limit := 10
  tx_request_gas_limit := none
  tx_request_gas_price := none
  create_txn_env := .ok { input := [1], kind := .create, gas_limit := 10, gas_price := 0 }
  state_override := none
  account_code := fun _ => .error 0
  caller_gas_allowance := .ok 0
  transact := fun g => if g = 10 then .ok (.success 6 0) else .error (.gasTooHighErr 0)
  ratio_exit := ratio_exit_rat

/-- Concrete input for the C1 witness: every execution succeeds with
`gas_used = 2`. -/
def inputsW1 : EstimateInputs where
  block_gas_limit := 4
  tx_request_gas_limit := none
  tx_request_gas_price := none
  create_txn_env := .ok { input := [1], kind := .create, gas_limit := 4, gas_price := 0 }
  state_override := none
  account_code := fun _ => .error 0
  caller_gas_allowance := .ok 0
  transact := fun _ => .ok (.success 2 0)
  ratio_exit := ratio_exit_rat

/-- Concrete transact function for the C4 witness. -/
def transactW4 : Nat → Except EthError ExecResult := fun _ => .ok (.success 3 1)

/-- Concrete inputs (no requested gas limit or price) for the C4 witness. -/
def inputsW4 : EstimateInputs where
  block_gas_limit := 5
  tx_request_gas_limit := none
  tx_request_gas_price := none
  create_txn_env := .ok { input := [1], kind := .create, gas_limit := 5, gas_price := 0 }
  state_override := none
  account_code := fun _ => .error 0
  caller_gas_allowance := .ok 0
  transact := transactW4
  ratio_exit := ratio_exit_rat

/-- Concrete inputs for the C5 witness: a plain transfer (empty input) to
address 7 with no stored code, succeeding at the minimum gas. -/
def inputsW5 : EstimateInputs where
  block_gas_limit := 30000000
  tx_request_gas_limit := none
  tx_request_gas_price := none
  create_txn_env := .ok { input := [], kind := .call 7, gas_limit := 30000000, gas_price := 0 }
  state_override := none
  account_code := fun _ => .ok none
  caller_gas_allowance := .ok 0
  transact := fun _ => .ok (.success 21000 0)
  ratio_exit := ratio_exit_rat

/-- Concrete inputs for the C6 witness: every execution reports
gas-too-low. -/
def inputsW6 : EstimateInputs where
  block_gas_limit := 50
  tx_request_gas_limit := none
  tx_request_gas_price := some 3
  create_txn_env := .ok { input := [1], kind := .create, gas_limit := 50, gas_price := 3 }
  state_override := none
  account_code := fun _ => .error 0
  caller_gas_allowance := .ok 40
  transact := fun _ => .error (.gasTooLowErr 9)
  ratio_exit := ratio_exit_rat

/-- Concrete inputs for the C8 witness: the probe at limit 9 succeeds with
`gas_used = 5`. -/
def inputsW8 : EstimateInputs where
  block_gas_limit := 9
  tx_request_gas_limit := none
  tx_request_gas_price := none
  create_txn_env := .ok { input := [1], kind := .create, gas_limit := 9, gas_price := 0 }
  state_override := none
  account_code := fun _ => .error 0
  caller_gas_allowance := .ok 0
  transact := fun _ => .ok (.success 5 1)
  ratio_exit := ratio_exit_rat

/-- Concrete input refuting the unrestricted claim C2: the initial probe at
limit 100000 succeeds with `gas_used = 1000`, every other limit reverts
with `gas_used = 10`. -/
def inputsX2 : EstimateInputs where
  block_gas_limit := 100000
  tx_request_gas_limit := none
  tx_request_gas_price := none
  create_txn_env := .ok { input := [1], kind := .create, gas_limit := 100000, gas_price := 0 }
  state_override := none
  account_code := fun _ => .error 0
  caller_gas_allowance := .ok 0
  transact := fun g => if g = 100000 then .ok (.success 1000 0) else .ok (.revert 10 [])
  ratio_exit := ratio_exit_rat


theorem search_loop_ok_success
    (transact : Nat → Except EthError ExecResult) (ratio_exit : Nat → Nat → Bool)
    (hngh : ∀ g e, transact g = .error e → e.is_gas_too_high = false) :
    ∀ n lowest highest v, highest - lowest ≤ n →
      (∃ g r, transact highest = .ok (.success g r)) →
      search_loop transact ratio_exit lowest highest = .ok v →
      ∃ g r, transact v = .ok (.success g r) := by
  intro n
  induction n with
  | zero =>
    intro l h v hle hs heq
    rw [search_loop] at heq
    rw [if_neg (by omega)] at heq
    cases heq
    exact hs
  | succ n ih =>
    intro l h v hle hs heq
    rw [search_loop] at heq
    split at heq
    case isFalse => cases heq; exact hs
    case isTrue hg =>
      split at heq
      case isTrue => cases heq; exact hs
      case isFalse hr =>
        simp only [] at heq
        split at heq
        case h_1 e htr =>
          have hh : e.is_gas_too_high = false := hngh _ _ htr
          rw [hh] at heq
          simp only [Bool.false_eq_true, if_false] at heq
          split at heq
          case isTrue hlow =>
            exact ih ((h + l) / 2) h v (by omega) hs heq
          case isFalse => cases heq
        case h_2 res htr =>
          split at heq
          case h_1 h' l' hu =>
            cases res with
            | success g r =>
              simp only [update_estimated_gas_range] at hu
              cases hu
              exact ih l ((h + l) / 2) v (by omega) ⟨g, r, htr⟩ heq
            | revert g o =>
              simp only [update_estimated_gas_range] at hu
              cases hu
              exact ih ((h + l) / 2) h v (by omega) hs heq
            | halt g o =>
              simp only [update_estimated_gas_range] at hu
              cases hu
              exact ih ((h + l) / 2) h v (by omega) hs heq
          case h_2 e hu =>
            cases res <;> simp [update_estimated_gas_range] at hu

theorem search_loop_first_ok_success
    (transact : Nat → Except EthError ExecResult) (ratio_exit : Nat → Nat → Bool)
    (hngh : ∀ g e, transact g = .error e → e.is_gas_too_high = false)
    (gas_used lowest highest v : Nat)
    (hs : ∃ g r, transact highest = .ok (.success g r))
    (heq : search_loop_first transact ratio_exit gas_used lowest highest = .ok v) :
    ∃ g r, transact v = .ok (.success g r) := by
  rw [search_loop_first] at heq
  split at heq
  case isFalse => cases heq; exact hs
  case isTrue hg =>
    split at heq
    case isTrue => cases heq; exact hs
    case isFalse hr =>
      simp only [] at heq
      set mid := min (u64 (gas_used * 3)) ((highest + lowest) / 2) with hmid
      split at heq
      case h_1 e htr =>
        have hh : e.is_gas_too_high = false := hngh _ _ htr
        rw [hh] at heq
        simp only [Bool.false_eq_true, if_false] at heq
        split at heq
        case isTrue hlow =>
          exact search_loop_ok_success transact ratio_exit hngh (highest - mid) mid highest v
            (by omega) hs heq
        case isFalse => cases heq
      case h_2 res htr =>
        split at heq
        case h_1 h' l' hu =>
          cases res with
          | success g r =>
            simp only [update_estimated_gas_range] at hu
            cases hu
            exact search_loop_ok_success transact ratio_exit hngh (mid - lowest) lowest mid v
              (by omega) ⟨g, r, htr⟩ heq
          | revert g o =>
            simp only [update_estimated_gas_range] at hu
            cases hu
            exact search_loop_ok_success transact ratio_exit hngh (highest - mid) mid highest v
              (by omega) hs heq
          | halt g o =>
            simp only [update_estimated_gas_range] at hu
            cases hu
            exact search_loop_ok_success transact ratio_exit hngh (highest - mid) mid highest v
              (by omega) hs heq
        case h_2 e hu =>
          cases res <;> simp [update_estimated_gas_range] at hu

theorem search_phase_ok_success
    (transact : Nat → Except EthError ExecResult) (ratio_exit : Nat → Nat → Bool)
    (hngh : ∀ g e, transact g = .error e → e.is_gas_too_high = false)
    (pl g0 r0 v : Nat)
    (hs : ∃ g r, transact pl = .ok (.success g r))
    (heq : search_phase transact ratio_exit pl g0 r0 = .ok v) :
    ∃ g r, transact v = .ok (.success g r) := by
  rw [search_phase] at heq
  split at heq
  case isTrue hopt =>
    split at heq
    case h_1 e htr => cases heq
    case h_2 res htr =>
      split at heq
      case h_1 h' l' hu =>
        cases res with
        | success g r =>
          simp only [update_estimated_gas_range] at hu
          cases hu
          exact search_loop_first_ok_success transact ratio_exit hngh _ _ _ v ⟨g, r, htr⟩ heq
        | revert g o =>
          simp only [update_estimated_gas_range] at hu
          cases hu
          exact search_loop_first_ok_success transact ratio_exit hngh _ _ _ v hs heq
        | halt g o =>
          simp only [update_estimated_gas_range] at hu
          cases hu
          exact search_loop_first_ok_success transact ratio_exit hngh _ _ _ v hs heq
      case h_2 e hu =>
        cases res <;> simp [update_estimated_gas_range] at hu
  case isFalse hopt =>
    exact search_loop_first_ok_success transact ratio_exit hngh _ _ _ v hs heq

/-- If the short-circuit fired, the transaction executed successfully at
`MIN_TRANSACTION_GAS`. -/
theorem short_circuit_success (I : EstimateInputs) (te : TxEnvM)
    (h : short_circuit_taken I te = true) :
    ∃ g r, I.transact MIN_TRANSACTION_GAS = .ok (.success g r) := by
  unfold short_circuit_taken at h
  rw [Bool.and_eq_true] at h
  obtain ⟨-, h⟩ := h
  split at h
  case h_1 addr =>
    split at h
    case h_1 code hc =>
      rw [Bool.and_eq_true] at h
      obtain ⟨-, h⟩ := h
      split at h
      case h_1 res htr =>
        cases res with
        | success g r => exact ⟨g, r, htr⟩
        | revert g o => simp [ExecResult.is_success] at h
        | halt g o => simp [ExecResult.is_success] at h
      case h_2 => cases h
    case h_2 => cases h
  case h_2 => cases h

/-- Claim C1 (amended): whenever `estimate_gas_with` returns `Ok v` and no
gas limit makes the executor report a gas-too-high classification error,
re-executing the transaction with gas limit `v` yields a `Success` outcome.
(The original claim, without the gas-too-high proviso, is refuted by
`C1_counterexample`: when a binary-search probe fails with a gas-too-high
error the code sets `highest_gas_limit` to that midpoint even though no
execution succeeded there.) -/
theorem C1_answer_validity (I : EstimateInputs) (v : Nat)
    (hngh : ∀ g e, I.transact g = .error e → e.is_gas_too_high = false)
    (hok : estimate_gas_with I = .ok v) :
    ∃ g r, I.transact v = .ok (.success g r) := by
  unfold estimate_gas_with estimate_gas_with_d at hok
  split at hok
  case h_1 e hc => cases hok
  case h_2 te hc =>
    split at hok
    case h_1 e => cases hok
    case h_2 =>
      split at hok
      case isTrue hsc =>
        cases hok
        exact short_circuit_success I te hsc
      case isFalse hsc =>
        unfold estimate_after_short_circuit at hok
        split at hok
        case h_1 e hp => cases hok
        case h_2 pl hp =>
          split at hok
          case h_1 e htr =>
            split at hok
            case isTrue => cases hok
            case isFalse =>
              split at hok
              case isTrue => cases hok
              case isFalse => cases hok
          case h_2 res htr =>
            split at hok
            case h_1 g reason => cases hok
            case h_2 g output => split at hok <;> cases hok
            case h_3 g r =>
              exact search_phase_ok_success I.transact I.ratio_exit hngh pl g r v
                ⟨g, r, htr⟩ hok

/-- Claim C1 counterexample: on `inputsX1` the estimation reaches the
binary-search phase (the initial probe at limit 10 succeeds, the
short-circuit does not fire) and returns `Ok 6`, but executing with gas
limit 6 does not succeed - it fails with a gas-too-high error. -/
theorem C1_counterexample :
    estimate_gas_with inputsX1 = .ok 6 ∧
      short_circuit_taken inputsX1 ⟨[1], .create, 10, 0⟩ = false ∧
      ∀ g r, inputsX1.transact 6 ≠ .ok (.success g r) := by
  refine ⟨?_, ?_, ?_⟩
  · simp [estimate_gas_with, estimate_gas_with_d, inputsX1, short_circuit_taken,
      estimate_after_short_circuit, probe_gas_limit, search_phase, optimistic_gas_limit, u64,
      search_loop_first, search_loop, update_estimated_gas_range, ratio_exit_rat,
      EthError.is_gas_too_high, EthError.is_gas_too_low, ExecResult.gas_used,
      MIN_TRANSACTION_GAS, CALL_STIPEND_GAS]
  · simp [short_circuit_taken]
  · intro g r
    simp [inputsX1]

/-- Claim C1 witness: on `inputsW1` the hypotheses of `C1_answer_validity`
hold and the returned limit 2 indeed succeeds. -/
theorem C1_answer_validity_witness :
    (∀ g e, inputsW1.transact g = .error e → e.is_gas_too_high = false) ∧
      estimate_gas_with inputsW1 = .ok 2 ∧
      ∃ g r, inputsW1.transact 2 = .ok (.success g r) := by
  have hngh : ∀ g e, inputsW1.transact g = .error e → e.is_gas_too_high = false := by
    intro g e h
    simp [inputsW1] at h
  have hok : estimate_gas_with inputsW1 = .ok 2 := by
    simp [estimate_gas_with, estimate_gas_with_d, inputsW1, short_circuit_taken,
      estimate_after_short_circuit, probe_gas_limit, search_phase, optimistic_gas_limit, u64,
      search_loop_first, search_loop, update_estimated_gas_range, ratio_exit_rat,
      EthError.is_gas_too_high, EthError.is_gas_too_low, ExecResult.gas_used,
      MIN_TRANSACTION_GAS, CALL_STIPEND_GAS]
  exact ⟨hngh, hok, C1_answer_validity inputsW1 2 hngh hok⟩


/-- Claim C3: the range-update rule sets `highest_gas_limit` to the tested
limit exactly on `Success` and sets `lowest_gas_limit` to the tested limit
exactly on `Revert` or `Halt` (leaving the other bound unchanged in each
case), treats every halt reason identically to a revert, and never returns
an error. -/
theorem C3_update_range (res : ExecResult) (t h l : Nat) :
    update_estimated_gas_range res t h l =
      .ok (if res.is_success then (t, l) else (h, t)) ∧
      ∀ g out g' reason,
        update_estimated_gas_range (.revert g out) t h l =
          update_estimated_gas_range (.halt g' reason) t h l := by
  constructor
  · cases res <;> simp [update_estimated_gas_range, ExecResult.is_success]
  · intro g out g' reason
    simp [update_estimated_gas_range]

/-- Claim C4: the out-of-gas disambiguator re-executes at the environment
(block) gas limit and classifies - executor errors are returned unchanged,
`Success` yields `BasicOutOfGas` with the requested (not block) limit,
`Revert` yields a revert error with the output, `Halt` yields a halt error
with the reason and the requested limit; and when the request specified
neither a gas limit nor a gas price the estimation result does not depend
on the disambiguator at all (it is never invoked). -/
theorem C4_out_of_gas_disambiguator (transact : Nat → Except EthError ExecResult)
    (env_gas_limit req_gas_limit : Nat) :
    ((∀ e, transact env_gas_limit = .error e →
        map_out_of_gas_err transact env_gas_limit req_gas_limit = e) ∧
      (∀ g r, transact env_gas_limit = .ok (.success g r) →
        map_out_of_gas_err transact env_gas_limit req_gas_limit =
          .basicOutOfGas req_gas_limit) ∧
      (∀ g out, transact env_gas_limit = .ok (.revert g out) →
        map_out_of_gas_err transact env_gas_limit req_gas_limit = .revertError out) ∧
      (∀ g reason, transact env_gas_limit = .ok (.halt g reason) →
        map_out_of_gas_err transact env_gas_limit req_gas_limit =
          .evmHalt reason req_gas_limit)) ∧
      ∀ (oog oog' : (Nat → Except EthError ExecResult) → Nat → Nat → EthError)
        (I : EstimateInputs),
        I.tx_request_gas_limit = none → I.tx_request_gas_price = none →
        estimate_gas_with_d oog I = estimate_gas_with_d oog' I := by
  refine ⟨⟨?_, ?_, ?_, ?_⟩, ?_⟩
  · intro e he; simp [map_out_of_gas_err, he]
  · intro g r he; simp [map_out_of_gas_err, he]
  · intro g out he; simp [map_out_of_gas_err, he]
  · intro g reason he; simp [map_out_of_gas_err, he]
  · intro oog oog' I hgl hgp
    unfold estimate_gas_with_d
    cases hc : I.create_txn_env with
    | error e => rfl
    | ok te =>
      have h : estimate_after_short_circuit oog I te =
          estimate_after_short_circuit oog' I te := by
        unfold estimate_after_short_circuit
        rw [hgl, hgp]
        simp
      simp only [h]

/-- Claim C4 witness: a successful re-execution at the block limit yields
`BasicOutOfGas` carrying the requested limit 7, and with no requested gas
values the estimate is invariant under replacing the disambiguator. -/
theorem C4_out_of_gas_disambiguator_witness :
    transactW4 100 = .ok (.success 3 1) ∧
      map_out_of_gas_err transactW4 100 7 = .basicOutOfGas 7 ∧
      inputsW4.tx_request_gas_limit = none ∧ inputsW4.tx_request_gas_price = none ∧
      estimate_gas_with_d (fun _ _ _ => .otherErr 1) inputsW4 =
        estimate_gas_with_d (fun _ _ _ => .otherErr 2) inputsW4 := by
  refine ⟨rfl, ?_, rfl, rfl, ?_⟩
  · exact (C4_out_of_gas_disambiguator transactW4 100 7).1.2.1 3 1 rfl
  · exact (C4_out_of_gas_disambiguator transactW4 100 7).2 _ _ inputsW4 rfl rfl

/-- Claim C5: when the transaction input is empty, the kind is a call to an
address whose code lookup succeeds returning absent or empty code, and a
single execution at `MIN_TRANSACTION_GAS` succeeds, `estimate_gas_with`
returns exactly `MIN_TRANSACTION_GAS`; when the short-circuit conditions do
not hold, evaluation falls through to the general (search) path. -/
theorem C5_short_circuit_transfer (I : EstimateInputs) (te : TxEnvM)
    (hc : I.create_txn_env = .ok te)
    (ho : I.state_override = none ∨ I.state_override = some (.ok ())) :
    (∀ addr code res,
      te.input = [] → te.kind = .call addr → I.account_code addr = .ok code →
      (code = none ∨ code = some []) →
      I.transact MIN_TRANSACTION_GAS = .ok res → res.is_success = true →
      estimate_gas_with I = .ok MIN_TRANSACTION_GAS) ∧
    (short_circuit_taken I te = false →
      estimate_gas_with I = estimate_after_short_circuit map_out_of_gas_err I te) := by
  have hmain : ∀ b : Bool, short_circuit_taken I te = b →
      estimate_gas_with I =
        (if b then .ok MIN_TRANSACTION_GAS
         else estimate_after_short_circuit map_out_of_gas_err I te) := by
    intro b hb
    unfold estimate_gas_with estimate_gas_with_d
    rw [hc]
    rcases ho with ho | ho <;> rw [ho] <;> simp only [hb]
  constructor
  · intro addr code res hinp hkind hcode hempty htr hsucc
    have hsc : short_circuit_taken I te = true := by
      unfold short_circuit_taken
      simp only [hinp, hkind, hcode, htr, List.isEmpty, Bool.true_and]
      rcases hempty with h | h <;> subst h <;> simp [hsucc]
    simpa using hmain true hsc
  · intro hsc
    simpa using hmain false hsc

/-- Claim C5 witness: on `inputsW5` the short-circuit conditions hold and
the estimate is exactly `MIN_TRANSACTION_GAS`. -/
theorem C5_short_circuit_transfer_witness :
    inputsW5.create_txn_env =
        .ok { input := [], kind := .call 7, gas_limit := 30000000, gas_price := 0 } ∧
      inputsW5.account_code 7 = .ok none ∧
      inputsW5.transact MIN_TRANSACTION_GAS = .ok (.success 21000 0) ∧
      estimate_gas_with inputsW5 = .ok MIN_TRANSACTION_GAS := by
  refine ⟨rfl, rfl, rfl, ?_⟩
  exact (C5_short_circuit_transfer inputsW5 _ rfl (Or.inl rfl)).1 7 none (.success 21000 0)
    rfl rfl rfl (Or.inl rfl) rfl rfl

/-- Claim C6: when the initial probe fails with a gas-too-low
classification error, `estimate_gas_with` fails immediately with
`GasRequiredExceedsAllowance` carrying the gas limit attempted in that
probe, and no search is performed. -/
theorem C6_gas_too_low_probe (I : EstimateInputs) (te : TxEnvM) (pl c : Nat)
    (hc : I.create_txn_env = .ok te)
    (ho : I.state_override = none ∨ I.state_override = some (.ok ()))
    (hsc : short_circuit_taken I te = false)
    (hp : probe_gas_limit I te = .ok pl)
    (htr : I.transact pl = .error (.gasTooLowErr c)) :
    estimate_gas_with I = .error (.gasRequiredExceedsAllowance pl) := by
  unfold estimate_gas_with estimate_gas_with_d
  rw [hc]
  rcases ho with ho | ho <;> rw [ho] <;> simp only [hsc] <;>
    · simp only [Bool.false_eq_true, if_false]
      unfold estimate_after_short_circuit
      simp only [hp, htr]
      simp [EthError.is_gas_too_high, EthError.is_gas_too_low]

/-- Claim C6 witness: on `inputsW6` the probe runs at the allowance-capped
limit 40 and the estimate fails with `GasRequiredExceedsAllowance 40`. -/
theorem C6_gas_too_low_probe_witness :
    short_circuit_taken inputsW6 ⟨[1], .create, 50, 3⟩ = false ∧
      probe_gas_limit inputsW6 ⟨[1], .create, 50, 3⟩ = .ok 40 ∧
      inputsW6.transact 40 = .error (.gasTooLowErr 9) ∧
      estimate_gas_with inputsW6 = .error (.gasRequiredExceedsAllowance 40) := by
  refine ⟨?_, ?_, rfl, ?_⟩
  · rfl
  · rfl
  · exact C6_gas_too_low_probe inputsW6 _ 40 9 rfl (Or.inl rfl) rfl rfl rfl

/-- Claim C8: after a successful initial probe at gas limit `pl` reporting
`gas_used = g`, the search phase starts from the bounds
`(lowest, highest) = (g - 1, pl)` (the subtraction is the saturating
`gas_used.saturating_sub(1)`, so `g = 0` yields 0), for every reported
value of `g`. -/
theorem C8_search_start_bounds (I : EstimateInputs) (te : TxEnvM) (pl g r : Nat)
    (hc : I.create_txn_env = .ok te)
    (ho : I.state_override = none ∨ I.state_override = some (.ok ()))
    (hsc : short_circuit_taken I te = false)
    (hp : probe_gas_limit I te = .ok pl)
    (htr : I.transact pl = .ok (.success g r)) :
    estimate_gas_with I = search_phase I.transact I.ratio_exit pl g r ∧
      (search_phase_states I.transact I.ratio_exit pl g r).head? = some (g - 1, pl) := by
  constructor
  · unfold estimate_gas_with estimate_gas_with_d
    rw [hc]
    rcases ho with ho | ho <;> rw [ho] <;> simp only [hsc] <;>
      · simp only [Bool.false_eq_true, if_false]
        unfold estimate_after_short_circuit
        simp only [hp, htr]
  · rw [search_phase_states]
    split
    · split
      · rfl
      · split
        · rfl
        · rfl
    · rfl

/-- Claim C8 witness: on `inputsW8` the search starts from bounds
`(4, 9)`. -/
theorem C8_search_start_bounds_witness :
    probe_gas_limit inputsW8 ⟨[1], .create, 9, 0⟩ = .ok 9 ∧
      inputsW8.transact 9 = .ok (.success 5 1) ∧
      estimate_gas_with inputsW8 = search_phase inputsW8.transact inputsW8.ratio_exit 9 5 1 ∧
      (search_phase_states inputsW8.transact inputsW8.ratio_exit 9 5 1).head? = some (4, 9) := by
  refine ⟨rfl, rfl, ?_, ?_⟩
  · exact (C8_search_start_bounds inputsW8 _ 9 5 1 rfl (Or.inl rfl) rfl rfl rfl).1
  · exact (C8_search_start_bounds inputsW8 _ 9 5 1 rfl (Or.inl rfl) rfl rfl rfl).2


theorem search_loop_states_head (tr : Nat → Except EthError ExecResult)
    (ratio : Nat → Nat → Bool) (l h : Nat) :
    ∃ t, search_loop_states tr ratio l h = (l, h) :: t := by
  rw [search_loop_states]
  split
  · split
    · exact ⟨_, rfl⟩
    · simp only []
      split
      · split
        · exact ⟨_, rfl⟩
        · split
          · exact ⟨_, rfl⟩
          · exact ⟨_, rfl⟩
      · split
        · exact ⟨_, rfl⟩
        · exact ⟨_, rfl⟩
  · exact ⟨_, rfl⟩

theorem search_loop_states_chain_mono (tr : Nat → Except EthError ExecResult)
    (ratio : Nat → Nat → Bool) :
    ∀ n l h, h - l ≤ n →
      List.Chain' (fun a b : Nat × Nat => a.1 ≤ b.1 ∧ b.2 ≤ a.2)
        (search_loop_states tr ratio l h) := by
  intro n
  induction n with
  | zero =>
    intro l h hle
    rw [search_loop_states]
    rw [if_neg (by omega)]
    exact List.chain'_singleton _
  | succ n ih =>
    intro l h hle
    rw [search_loop_states]
    split
    case isFalse => exact List.chain'_singleton _
    case isTrue hg =>
      split
      case isTrue =>
        exact List.chain'_cons.mpr ⟨⟨le_rfl, le_rfl⟩, List.chain'_singleton _⟩
      case isFalse hr =>
        simp only []
        split
        case h_1 e htr =>
          split
          case isTrue =>
            obtain ⟨t, ht⟩ := search_loop_states_head tr ratio l ((h + l) / 2)
            rw [ht]
            refine List.chain'_cons.mpr ⟨⟨le_rfl, by omega⟩, ?_⟩
            rw [← ht]
            exact ih l ((h + l) / 2) (by omega)
          case isFalse =>
            split
            case isTrue =>
              obtain ⟨t, ht⟩ := search_loop_states_head tr ratio ((h + l) / 2) h
              rw [ht]
              refine List.chain'_cons.mpr ⟨⟨by omega, le_rfl⟩, ?_⟩
              rw [← ht]
              exact ih ((h + l) / 2) h (by omega)
            case isFalse =>
              exact List.chain'_cons.mpr ⟨⟨le_rfl, le_rfl⟩, List.chain'_singleton _⟩
        case h_2 res htr =>
          split
          case h_1 h' l' hu =>
            cases res with
            | success g r =>
              simp only [update_estimated_gas_range] at hu
              cases hu
              obtain ⟨t, ht⟩ := search_loop_states_head tr ratio l ((h + l) / 2)
              rw [ht]
              refine List.chain'_cons.mpr ⟨⟨le_rfl, by omega⟩, ?_⟩
              rw [← ht]
              exact ih l ((h + l) / 2) (by omega)
            | revert g o =>
              simp only [update_estimated_gas_range] at hu
              cases hu
              obtain ⟨t, ht⟩ := search_loop_states_head tr ratio ((h + l) / 2) h
              rw [ht]
              refine List.chain'_cons.mpr ⟨⟨by omega, le_rfl⟩, ?_⟩
              rw [← ht]
              exact ih ((h + l) / 2) h (by omega)
            | halt g o =>
              simp only [update_estimated_gas_range] at hu
              cases hu
              obtain ⟨t, ht⟩ := search_loop_states_head tr ratio ((h + l) / 2) h
              rw [ht]
              refine List.chain'_cons.mpr ⟨⟨by omega, le_rfl⟩, ?_⟩
              rw [← ht]
              exact ih ((h + l) / 2) h (by omega)
          case h_2 e hu =>
            cases res <;> simp [update_estimated_gas_range] at hu

theorem search_loop_first_states_head (tr : Nat → Except EthError ExecResult)
    (ratio : Nat → Nat → Bool) (g l h : Nat) :
    ∃ t, search_loop_first_states tr ratio g l h = (l, h) :: t := by
  rw [search_loop_first_states]
  split
  · split
    · exact ⟨_, rfl⟩
    · simp only []
      split
      · split
        · exact ⟨_, rfl⟩
        · split
          · exact ⟨_, rfl⟩
          · exact ⟨_, rfl⟩
      · split
        · exact ⟨_, rfl⟩
        · exact ⟨_, rfl⟩
  · exact ⟨_, rfl⟩

theorem search_loop_states_dropLast_inv (tr : Nat → Except EthError ExecResult)
    (ratio : Nat → Nat → Bool) :
    ∀ n l h, h - l ≤ n →
      ∀ p ∈ (search_loop_states tr ratio l h).dropLast, p.1 < p.2 := by
  intro n
  induction n with
  | zero =>
    intro l h hle p hp
    rw [search_loop_states, if_neg (by omega)] at hp
    simp at hp
  | succ n ih =>
    intro l h hle p hp
    rw [search_loop_states] at hp
    split at hp
    case isFalse => simp at hp
    case isTrue hg =>
      split at hp
      case isTrue =>
        simp at hp
        subst hp
        simp
        omega
      case isFalse hr =>
        simp only [] at hp
        split at hp
        case h_1 e htr =>
          split at hp
          case isTrue =>
            obtain ⟨t, ht⟩ := search_loop_states_head tr ratio l ((h + l) / 2)
            rw [ht, List.dropLast_cons₂] at hp
            rcases List.mem_cons.mp hp with hp | hp
            · subst hp; simp; omega
            · exact ih l ((h + l) / 2) (by omega) p (by rw [ht]; exact hp)
          case isFalse =>
            split at hp
            case isTrue =>
              obtain ⟨t, ht⟩ := search_loop_states_head tr ratio ((h + l) / 2) h
              rw [ht, List.dropLast_cons₂] at hp
              rcases List.mem_cons.mp hp with hp | hp
              · subst hp; simp; omega
              · exact ih ((h + l) / 2) h (by omega) p (by rw [ht]; exact hp)
            case isFalse =>
              simp at hp
              subst hp
              simp
              omega
        case h_2 res htr =>
          split at hp
          case h_1 h' l' hu =>
            cases res with
            | success q w =>
              simp only [update_estimated_gas_range] at hu
              cases hu
              obtain ⟨t, ht⟩ := search_loop_states_head tr ratio l ((h + l) / 2)
              rw [ht, List.dropLast_cons₂] at hp
              rcases List.mem_cons.mp hp with hp | hp
              · subst hp; simp; omega
              · exact ih l ((h + l) / 2) (by omega) p (by rw [ht]; exact hp)
            | revert q w =>
              simp only [update_estimated_gas_range] at hu
              cases hu
              obtain ⟨t, ht⟩ := search_loop_states_head tr ratio ((h + l) / 2) h
              rw [ht, List.dropLast_cons₂] at hp
              rcases List.mem_cons.mp hp with hp | hp
              · subst hp; simp; omega
              · exact ih ((h + l) / 2) h (by omega) p (by rw [ht]; exact hp)
            | halt q w =>
              simp only [update_estimated_gas_range] at hu
              cases hu
              obtain ⟨t, ht⟩ := search_loop_states_head tr ratio ((h + l) / 2) h
              rw [ht, List.dropLast_cons₂] at hp
              rcases List.mem_cons.mp hp with hp | hp
              · subst hp; simp; omega
              · exact ih ((h + l) / 2) h (by omega) p (by rw [ht]; exact hp)
          case h_2 e hu =>
            cases res <;> simp [update_estimated_gas_range] at hu

theorem search_loop_first_states_dropLast_inv (tr : Nat → Except EthError ExecResult)
    (ratio : Nat → Nat → Bool) (g l h : Nat) :
    ∀ p ∈ (search_loop_first_states tr ratio g l h).dropLast, p.1 < p.2 := by
  intro p hp
  rw [search_loop_first_states] at hp
  split at hp
  case isFalse => simp at hp
  case isTrue hg =>
    split at hp
    case isTrue =>
      simp at hp
      subst hp
      simp
      omega
    case isFalse hr =>
      simp only [] at hp
      set mid := min (u64 (g * 3)) ((h + l) / 2) with hmid
      split at hp
      case h_1 e htr =>
        split at hp
        case isTrue =>
          obtain ⟨t, ht⟩ := search_loop_states_head tr ratio l mid
          rw [ht, List.dropLast_cons₂] at hp
          rcases List.mem_cons.mp hp with hp | hp
          · subst hp; simp; omega
          · exact search_loop_states_dropLast_inv tr ratio (mid - l) l mid le_rfl p
              (by rw [ht]; exact hp)
        case isFalse =>
          split at hp
          case isTrue =>
            obtain ⟨t, ht⟩ := search_loop_states_head tr ratio mid h
            rw [ht, List.dropLast_cons₂] at hp
            rcases List.mem_cons.mp hp with hp | hp
            · subst hp; simp; omega
            · exact search_loop_states_dropLast_inv tr ratio (h - mid) mid h le_rfl p
                (by rw [ht]; exact hp)
          case isFalse =>
            simp at hp
            subst hp
            simp
            omega
      case h_2 res htr =>
        split at hp
        case h_1 h' l' hu =>
          cases res with
          | success q w =>
            simp only [update_estimated_gas_range] at hu
            cases hu
            obtain ⟨t, ht⟩ := search_loop_states_head tr ratio l mid
            rw [ht, List.dropLast_cons₂] at hp
            rcases List.mem_cons.mp hp with hp | hp
            · subst hp; simp; omega
            · exact search_loop_states_dropLast_inv tr ratio (mid - l) l mid le_rfl p
                (by rw [ht]; exact hp)
          | revert q w =>
            simp only [update_estimated_gas_range] at hu
            cases hu
            obtain ⟨t, ht⟩ := search_loop_states_head tr ratio mid h
            rw [ht, List.dropLast_cons₂] at hp
            rcases List.mem_cons.mp hp with hp | hp
            · subst hp; simp; omega
            · exact search_loop_states_dropLast_inv tr ratio (h - mid) mid h le_rfl p
                (by rw [ht]; exact hp)
          | halt q w =>
            simp only [update_estimated_gas_range] at hu
            cases hu
            obtain ⟨t, ht⟩ := search_loop_states_head tr ratio mid h
            rw [ht, List.dropLast_cons₂] at hp
            rcases List.mem_cons.mp hp with hp | hp
            · subst hp; simp; omega
            · exact search_loop_states_dropLast_inv tr ratio (h - mid) mid h le_rfl p
                (by rw [ht]; exact hp)
        case h_2 e hu =>
          cases res <;> simp [update_estimated_gas_range] at hu

theorem search_loop_first_states_chain_high (tr : Nat → Except EthError ExecResult)
    (ratio : Nat → Nat → Bool) (g l h : Nat) :
    List.Chain' (fun a b : Nat × Nat => b.2 ≤ a.2)
      (search_loop_first_states tr ratio g l h) := by
  have himp : ∀ l' h', List.Chain' (fun a b : Nat × Nat => b.2 ≤ a.2)
      (search_loop_states tr ratio l' h') := by
    intro l' h'
    exact (search_loop_states_chain_mono tr ratio (h' - l') l' h' le_rfl).imp
      (fun a b hab => hab.2)
  rw [search_loop_first_states]
  split
  case isFalse => exact List.chain'_singleton _
  case isTrue hg =>
    split
    case isTrue => exact List.chain'_cons.mpr ⟨le_rfl, List.chain'_singleton _⟩
    case isFalse hr =>
      simp only []
      set mid := min (u64 (g * 3)) ((h + l) / 2) with hmid
      split
      case h_1 e htr =>
        split
        case isTrue =>
          obtain ⟨t, ht⟩ := search_loop_states_head tr ratio l mid
          rw [ht]
          refine List.chain'_cons.mpr ⟨by simp; omega, ?_⟩
          rw [← ht]
          exact himp l mid
        case isFalse =>
          split
          case isTrue =>
            obtain ⟨t, ht⟩ := search_loop_states_head tr ratio mid h
            rw [ht]
            refine List.chain'_cons.mpr ⟨le_rfl, ?_⟩
            rw [← ht]
            exact himp mid h
          case isFalse =>
            exact List.chain'_cons.mpr ⟨le_rfl, List.chain'_singleton _⟩
      case h_2 res htr =>
        split
        case h_1 h' l' hu =>
          cases res with
          | success q w =>
            simp only [update_estimated_gas_range] at hu
            cases hu
            obtain ⟨t, ht⟩ := search_loop_states_head tr ratio l mid
            rw [ht]
            refine List.chain'_cons.mpr ⟨by simp; omega, ?_⟩
            rw [← ht]
            exact himp l mid
          | revert q w =>
            simp only [update_estimated_gas_range] at hu
            cases hu
            obtain ⟨t, ht⟩ := search_loop_states_head tr ratio mid h
            rw [ht]
            refine List.chain'_cons.mpr ⟨le_rfl, ?_⟩
            rw [← ht]
            exact himp mid h
          | halt q w =>
            simp only [update_estimated_gas_range] at hu
            cases hu
            obtain ⟨t, ht⟩ := search_loop_states_head tr ratio mid h
            rw [ht]
            refine List.chain'_cons.mpr ⟨le_rfl, ?_⟩
            rw [← ht]
            exact himp mid h
        case h_2 e hu =>
          cases res <;> simp [update_estimated_gas_range] at hu

theorem search_phase_states_chain_high (tr : Nat → Except EthError ExecResult)
    (ratio : Nat → Nat → Bool) (pl g r : Nat) :
    List.Chain' (fun a b : Nat × Nat => b.2 ≤ a.2)
      (search_phase_states tr ratio pl g r) := by
  rw [search_phase_states]
  split
  case isTrue hopt =>
    split
    case h_1 e htr => exact List.chain'_singleton _
    case h_2 res htr =>
      split
      case h_1 h' l' hu =>
        cases res with
        | success q w =>
          simp only [update_estimated_gas_range] at hu
          cases hu
          obtain ⟨t, ht⟩ := search_loop_first_states_head tr ratio
            (ExecResult.gas_used (.success q w)) (g - 1) (optimistic_gas_limit g r)
          rw [ht]
          refine List.chain'_cons.mpr ⟨by simp; omega, ?_⟩
          rw [← ht]
          exact search_loop_first_states_chain_high tr ratio _ _ _
        | revert q w =>
          simp only [update_estimated_gas_range] at hu
          cases hu
          obtain ⟨t, ht⟩ := search_loop_first_states_head tr ratio
            (ExecResult.gas_used (.revert q w)) (optimistic_gas_limit g r) pl
          rw [ht]
          refine List.chain'_cons.mpr ⟨le_rfl, ?_⟩
          rw [← ht]
          exact search_loop_first_states_chain_high tr ratio _ _ _
        | halt q w =>
          simp only [update_estimated_gas_range] at hu
          cases hu
          obtain ⟨t, ht⟩ := search_loop_first_states_head tr ratio
            (ExecResult.gas_used (.halt q w)) (optimistic_gas_limit g r) pl
          rw [ht]
          refine List.chain'_cons.mpr ⟨le_rfl, ?_⟩
          rw [← ht]
          exact search_loop_first_states_chain_high tr ratio _ _ _
      case h_2 e hu =>
        cases res <;> simp [update_estimated_gas_range] at hu
  case isFalse hopt =>
    obtain ⟨t, ht⟩ := search_loop_first_states_head tr ratio g (g - 1) pl
    rw [ht]
    refine List.chain'_cons.mpr ⟨le_rfl, ?_⟩
    rw [← ht]
    exact search_loop_first_states_chain_high tr ratio _ _ _

theorem le_mul64_div63 (x : Nat) : x ≤ x * 64 / 63 :=
  (Nat.le_div_iff_mul_le (by norm_num)).mpr (Nat.mul_le_mul_left x (by norm_num))

theorem optimistic_gas_limit_eq (g r : Nat)
    (hov : (g + r + CALL_STIPEND_GAS) * 64 < 2 ^ 64) :
    optimistic_gas_limit g r = (g + r + CALL_STIPEND_GAS) * 64 / 63 := by
  unfold optimistic_gas_limit u64
  rw [Nat.mod_eq_of_lt (by omega), Nat.mod_eq_of_lt (by omega), Nat.mod_eq_of_lt (by omega)]

theorem search_phase_states_take_two_mono (tr : Nat → Except EthError ExecResult)
    (ratio : Nat → Nat → Bool) (pl g r : Nat)
    (hov : (g + r + CALL_STIPEND_GAS) * 64 < 2 ^ 64) :
    List.Chain' (fun a b : Nat × Nat => a.1 ≤ b.1 ∧ b.2 ≤ a.2)
      ((search_phase_states tr ratio pl g r).take 2) := by
  have hge : g - 1 ≤ optimistic_gas_limit g r := by
    rw [optimistic_gas_limit_eq g r hov]
    calc g - 1 ≤ g + r + CALL_STIPEND_GAS := by omega
    _ ≤ (g + r + CALL_STIPEND_GAS) * 64 / 63 := le_mul64_div63 _
  rw [search_phase_states]
  split
  case isTrue hopt =>
    split
    case h_1 e htr => simp
    case h_2 res htr =>
      split
      case h_1 h' l' hu =>
        cases res with
        | success q w =>
          simp only [update_estimated_gas_range] at hu
          cases hu
          obtain ⟨t, ht⟩ := search_loop_first_states_head tr ratio
            (ExecResult.gas_used (.success q w)) (g - 1) (optimistic_gas_limit g r)
          rw [ht]
          simp only [List.take_succ_cons, List.take_zero]
          exact List.chain'_cons.mpr ⟨⟨le_rfl, le_of_lt hopt⟩, List.chain'_singleton _⟩
        | revert q w =>
          simp only [update_estimated_gas_range] at hu
          cases hu
          obtain ⟨t, ht⟩ := search_loop_first_states_head tr ratio
            (ExecResult.gas_used (.revert q w)) (optimistic_gas_limit g r) pl
          rw [ht]
          simp only [List.take_succ_cons, List.take_zero]
          exact List.chain'_cons.mpr ⟨⟨hge, le_rfl⟩, List.chain'_singleton _⟩
        | halt q w =>
          simp only [update_estimated_gas_range] at hu
          cases hu
          obtain ⟨t, ht⟩ := search_loop_first_states_head tr ratio
            (ExecResult.gas_used (.halt q w)) (optimistic_gas_limit g r) pl
          rw [ht]
          simp only [List.take_succ_cons, List.take_zero]
          exact List.chain'_cons.mpr ⟨⟨hge, le_rfl⟩, List.chain'_singleton _⟩
      case h_2 e hu =>
        cases res <;> simp [update_estimated_gas_range] at hu
  case isFalse hopt =>
    obtain ⟨t, ht⟩ := search_loop_first_states_head tr ratio g (g - 1) pl
    rw [ht]
    simp only [List.take_succ_cons, List.take_zero]
    exact List.chain'_cons.mpr ⟨⟨le_rfl, le_rfl⟩, List.chain'_singleton _⟩

/-- Claim C2 (amended): across the whole search, `highest_gas_limit` is
non-increasing at every probe; the loop invariant
`lowest_gas_limit < highest_gas_limit` holds at loop entry on every
executed iteration (every non-final recorded state); `lowest_gas_limit` is
non-decreasing at the optimistic-guess step (when its `u64` computation
does not overflow) and at every binary-search iteration after the first.
At the first binary-search iteration `lowest_gas_limit` can decrease,
because the midpoint `min(gas_used * 3, (highest + lowest) / 2)` may fall
below the current lowest bound when `gas_used` was updated by a failed
optimistic probe; `C2_counterexample` exhibits such a run, refuting the
unrestricted original claim. -/
theorem C2_monotone_narrowing :
    (∀ (tr : Nat → Except EthError ExecResult) (ratio : Nat → Nat → Bool) (l h : Nat),
        List.Chain' (fun a b : Nat × Nat => a.1 ≤ b.1 ∧ b.2 ≤ a.2)
          (search_loop_states tr ratio l h)) ∧
      (∀ (tr : Nat → Except EthError ExecResult) (ratio : Nat → Nat → Bool) (pl g r : Nat),
        List.Chain' (fun a b : Nat × Nat => b.2 ≤ a.2) (search_phase_states tr ratio pl g r)) ∧
      (∀ (tr : Nat → Except EthError ExecResult) (ratio : Nat → Nat → Bool) (l h : Nat),
        ∀ p ∈ (search_loop_states tr ratio l h).dropLast, p.1 < p.2) ∧
      (∀ (tr : Nat → Except EthError ExecResult) (ratio : Nat → Nat → Bool) (g l h : Nat),
        ∀ p ∈ (search_loop_first_states tr ratio g l h).dropLast, p.1 < p.2) ∧
      (∀ (tr : Nat → Except EthError ExecResult) (ratio : Nat → Nat → Bool) (pl g r : Nat),
        (g + r + CALL_STIPEND_GAS) * 64 < 2 ^ 64 →
        List.Chain' (fun a b : Nat × Nat => a.1 ≤ b.1 ∧ b.2 ≤ a.2)
          ((search_phase_states tr ratio pl g r).take 2)) := by
  refine ⟨?_, ?_, ?_, ?_, ?_⟩
  · intro tr ratio l h
    exact search_loop_states_chain_mono tr ratio (h - l) l h le_rfl
  · intro tr ratio pl g r
    exact search_phase_states_chain_high tr ratio pl g r
  · intro tr ratio l h
    exact search_loop_states_dropLast_inv tr ratio (h - l) l h le_rfl
  · intro tr ratio g l h
    exact search_loop_first_states_dropLast_inv tr ratio g l h
  · intro tr ratio pl g r hov
    exact search_phase_states_take_two_mono tr ratio pl g r hov

/-- Claim C2 counterexample: on `inputsX2` the estimation reaches the
search phase with bounds `(999, 100000)`; the optimistic probe at 3352
reverts, raising the lowest bound to 3352 and setting `gas_used = 10`; the
first binary-search probe then runs at `min(10 * 3, 51676) = 30` and its
revert lowers the lowest bound from 3352 to 30 - so `lowest_gas_limit` is
not non-decreasing across probes. -/
theorem C2_counterexample :
    estimate_gas_with inputsX2 =
        search_phase inputsX2.transact inputsX2.ratio_exit 100000 1000 0 ∧
      ¬ List.Chain' (fun a b : Nat × Nat => a.1 ≤ b.1 ∧ b.2 ≤ a.2)
        (search_phase_states inputsX2.transact inputsX2.ratio_exit 100000 1000 0) := by
  constructor
  · unfold estimate_gas_with estimate_gas_with_d
    simp only [inputsX2]
    simp [short_circuit_taken, estimate_after_short_circuit, probe_gas_limit]
  · have hstep : search_loop_states inputsX2.transact inputsX2.ratio_exit 30 100000 =
        (30, 100000) :: search_loop_states inputsX2.transact inputsX2.ratio_exit 50015 100000 := by
      rw [search_loop_states]
      norm_num [inputsX2, ratio_exit_rat]
      split
      case h_1 h' l' hu =>
        simp only [update_estimated_gas_range] at hu
        cases hu
        rfl
      case h_2 e hu =>
        simp [update_estimated_gas_range] at hu
    have hd : search_phase_states inputsX2.transact inputsX2.ratio_exit 100000 1000 0 =
        (999, 100000) :: (3352, 100000) ::
          search_loop_states inputsX2.transact inputsX2.ratio_exit 30 100000 := by
      rw [search_phase_states]
      norm_num [inputsX2, optimistic_gas_limit, u64, CALL_STIPEND_GAS,
        update_estimated_gas_range, ExecResult.gas_used, search_loop_first_states,
        ratio_exit_rat]
    intro hch
    rw [hd, hstep] at hch
    have h2 := (List.chain'_cons.mp (List.chain'_cons.mp hch).2).1
    omega

/-- Claim C2 witness: a concrete instantiation of `C2_monotone_narrowing`
- the overflow-free hypothesis holds at `gas_used = 5`, `refund = 1` and
the monotonicity conclusions follow. -/
theorem C2_monotone_narrowing_witness :
    ((5 + 1 + CALL_STIPEND_GAS) * 64 < 2 ^ 64) ∧
      List.Chain' (fun a b : Nat × Nat => a.1 ≤ b.1 ∧ b.2 ≤ a.2)
        ((search_phase_states (fun _ => .ok (.success 5 1)) ratio_exit_rat 9 5 1).take 2) ∧
      List.Chain' (fun a b : Nat × Nat => a.1 ≤ b.1 ∧ b.2 ≤ a.2)
        (search_loop_states (fun _ => .ok (.success 5 1)) ratio_exit_rat 4 9) := by
  refine ⟨by norm_num [CALL_STIPEND_GAS], ?_, ?_⟩
  · exact C2_monotone_narrowing.2.2.2.2 (fun _ => .ok (.success 5 1)) ratio_exit_rat 9 5 1
      (by norm_num [CALL_STIPEND_GAS])
  · exact C2_monotone_narrowing.1 (fun _ => .ok (.success 5 1)) ratio_exit_rat 4 9

/-- Claim C7 (amended): after a successful initial probe with `gas_used = g`
and `gas_refund = r`, provided the `u64` computation does not overflow
(`(g + r + CALL_STIPEND_GAS) * 64 < 2 ^ 64`), the optimistic guess equals
`(g + r + CALL_STIPEND_GAS) * 64 / 63` in integer arithmetic, and the
search phase probes at that guess (feeding the outcome to the range-update
rule) exactly when the guess is strictly below the current highest gas
limit, leaving the bounds unchanged otherwise.  Without the overflow
proviso the stated formula is refuted by `C7_counterexample`, since the
source computes in wrapping `u64` arithmetic. -/
theorem C7_optimistic_guess (tr : Nat → Except EthError ExecResult)
    (ratio : Nat → Nat → Bool) (pl g r : Nat)
    (hov : (g + r + CALL_STIPEND_GAS) * 64 < 2 ^ 64) :
    optimistic_gas_limit g r = (g + r + CALL_STIPEND_GAS) * 64 / 63 ∧
      (optimistic_gas_limit g r < pl →
        search_phase tr ratio pl g r =
          match tr (optimistic_gas_limit g r) with
          | .error e => .error e
          | .ok res =>
            match update_estimated_gas_range res (optimistic_gas_limit g r) pl (g - 1) with
            | .ok (h, l) => search_loop_first tr ratio res.gas_used l h
            | .error e => .error e) ∧
      (¬ optimistic_gas_limit g r < pl →
        search_phase tr ratio pl g r = search_loop_first tr ratio g (g - 1) pl) := by
  refine ⟨optimistic_gas_limit_eq g r hov, ?_, ?_⟩
  · intro hlt
    rw [search_phase]
    rw [if_pos hlt]
  · intro hlt
    rw [search_phase]
    rw [if_neg hlt]

/-- Claim C7 counterexample: at `gas_used = 2 ^ 63`, `gas_refund = 0` the
`u64` multiplication wraps, so the computed optimistic limit is 2336 and
not the value of the claimed pure-integer formula. -/
theorem C7_counterexample :
    optimistic_gas_limit (2 ^ 63) 0 = 2336 ∧
      optimistic_gas_limit (2 ^ 63) 0 ≠ (2 ^ 63 + 0 + CALL_STIPEND_GAS) * 64 / 63 := by
  constructor
  · norm_num [optimistic_gas_limit, u64, CALL_STIPEND_GAS]
  · norm_num [optimistic_gas_limit, u64, CALL_STIPEND_GAS]

/-- Claim C7 witness: at `gas_used = 100`, `gas_refund = 50` there is no
overflow, the optimistic guess is `(100 + 50 + 2300) * 64 / 63 = 2488`, and
with a probe ceiling of 3000 the guess is below the ceiling. -/
theorem C7_optimistic_guess_witness :
    ((100 + 50 + CALL_STIPEND_GAS) * 64 < 2 ^ 64) ∧
      optimistic_gas_limit 100 50 = (100 + 50 + CALL_STIPEND_GAS) * 64 / 63 ∧
      optimistic_gas_limit 100 50 = 2488 ∧ optimistic_gas_limit 100 50 < 3000 := by
  refine ⟨by norm_num [CALL_STIPEND_GAS], ?_, ?_, ?_⟩
  · exact (C7_optimistic_guess (fun _ => .ok (.success 100 50)) ratio_exit_rat 3000 100 50
      (by norm_num [CALL_STIPEND_GAS])).1
  · norm_num [optimistic_gas_limit, u64, CALL_STIPEND_GAS]
  · norm_num [optimistic_gas_limit, u64, CALL_STIPEND_GAS]

end EstimateGas

namespace ChainStorage

theorem read_block_bodies_fields {T W : Type} (spec : ChainSpecM) (tbl : BodyTables W) :
    ∀ (inputs : List (HeaderM × List T)) (bs : List (BlockBodyM T W)),
      read_block_bodies spec tbl inputs = .ok bs →
      bs.length = inputs.length ∧
      ∀ i (hi : i < inputs.length) (hb : i < bs.length),
        (bs.get ⟨i, hb⟩).transactions = (inputs.get ⟨i, hi⟩).2 ∧
        (spec.is_paris_active_at_block (inputs.get ⟨i, hi⟩).1.number = true →
          (bs.get ⟨i, hb⟩).ommers = []) ∧
        (spec.is_shanghai_active_at_timestamp (inputs.get ⟨i, hi⟩).1.timestamp = true →
          ∃ o, tbl.withdrawals (inputs.get ⟨i, hi⟩).1.number = .ok o ∧
            (bs.get ⟨i, hb⟩).withdrawals = some (o.getD [])) ∧
        (spec.is_shanghai_active_at_timestamp (inputs.get ⟨i, hi⟩).1.timestamp = false →
          (bs.get ⟨i, hb⟩).withdrawals = none) := by
  intro inputs
  induction inputs with
  | nil =>
    intro bs hok
    simp only [read_block_bodies] at hok
    cases hok
    exact ⟨rfl, by intro i hi; simp at hi⟩
  | cons p rest ih =>
    obtain ⟨header, txs⟩ := p
    intro bs hok
    rw [read_block_bodies] at hok
    split at hok
    case h_1 => cases hok
    case h_2 withdrawals hw =>
      split at hok
      case h_1 => cases hok
      case h_2 ommers hom =>
        split at hok
        case h_1 => cases hok
        case h_2 tail htail =>
          cases hok
          obtain ⟨hlen, hidx⟩ := ih tail htail
          refine ⟨by simp [hlen], ?_⟩
          intro i hi hb
          cases i with
          | zero =>
            refine ⟨rfl, ?_, ?_, ?_⟩
            · intro hparis
              replace hparis : spec.is_paris_active_at_block header.number = true := hparis
              split at hom
              case isTrue => cases hom; rfl
              case isFalse hf => rw [hparis] at hf; simp at hf
            · intro hsh
              replace hsh : spec.is_shanghai_active_at_timestamp header.timestamp = true := hsh
              split at hw
              case isTrue =>
                split at hw
                case h_1 w hlook =>
                  cases hw
                  exact ⟨w, hlook, rfl⟩
                case h_2 e hlook => cases hw
              case isFalse hf => rw [hsh] at hf; simp at hf
            · intro hsh
              replace hsh : spec.is_shanghai_active_at_timestamp header.timestamp = false := hsh
              split at hw
              case isTrue ht => rw [hsh] at ht; simp at ht
              case isFalse =>
                cases hw
                rfl
          | succ j =>
            have hj : j < rest.length := by simpa using hi
            have hjb : j < tail.length := by omega
            exact hidx j hj hjb

theorem read_block_bodies_paris_ommers_invariant {T W : Type} (spec : ChainSpecM)
    (wt : Nat → Except Nat (Option (List W))) :
    ∀ (inputs : List (HeaderM × List T)),
      (∀ p ∈ inputs, spec.is_paris_active_at_block p.1.number = true) →
      ∀ om om', read_block_bodies spec ⟨om, wt⟩ inputs =
        read_block_bodies spec ⟨om', wt⟩ inputs := by
  intro inputs
  induction inputs with
  | nil => intro _ om om'; rfl
  | cons p rest ih =>
    obtain ⟨header, txs⟩ := p
    intro hall om om'
    have hp : spec.is_paris_active_at_block header.number = true :=
      hall (header, txs) (by simp)
    have hrest : ∀ q ∈ rest, spec.is_paris_active_at_block q.1.number = true :=
      fun q hq => hall q (List.mem_cons_of_mem _ hq)
    simp only [read_block_bodies]
    rw [hp]
    simp only [if_pos]
    rw [ih hrest om om']

/-- Claim C9: `read_block_bodies` returns one body per input in order
(same length, transactions preserved per index); a Paris-active block
number yields an empty ommers list and does so without consulting the
ommers table (the result is invariant under replacing it when every input
is Paris-active); a Shanghai-active timestamp always yields a present
withdrawals list - the stored one if found, otherwise empty - and a
pre-Shanghai timestamp yields no withdrawals list. -/
theorem C9_read_block_bodies {T W : Type} (spec : ChainSpecM) (tbl : BodyTables W)
    (inputs : List (HeaderM × List T)) (bs : List (BlockBodyM T W))
    (hok : read_block_bodies spec tbl inputs = .ok bs) :
    (bs.length = inputs.length ∧
      ∀ i (hi : i < inputs.length) (hb : i < bs.length),
        (bs.get ⟨i, hb⟩).transactions = (inputs.get ⟨i, hi⟩).2 ∧
        (spec.is_paris_active_at_block (inputs.get ⟨i, hi⟩).1.number = true →
          (bs.get ⟨i, hb⟩).ommers = []) ∧
        (spec.is_shanghai_active_at_timestamp (inputs.get ⟨i, hi⟩).1.timestamp = true →
          ∃ o, tbl.withdrawals (inputs.get ⟨i, hi⟩).1.number = .ok o ∧
            (bs.get ⟨i, hb⟩).withdrawals = some (o.getD [])) ∧
        (spec.is_shanghai_active_at_timestamp (inputs.get ⟨i, hi⟩).1.timestamp = false →
          (bs.get ⟨i, hb⟩).withdrawals = none)) ∧
      ((∀ p ∈ inputs, spec.is_paris_active_at_block p.1.number = true) →
        ∀ om om', read_block_bodies spec ⟨om, tbl.withdrawals⟩ inputs =
          read_block_bodies spec ⟨om', tbl.withdrawals⟩ inputs) :=
  ⟨read_block_bodies_fields spec tbl inputs bs hok,
    fun hall om om' =>
      read_block_bodies_paris_ommers_invariant spec tbl.withdrawals inputs hall om om'⟩

/-- Claim C9 witness: on the concrete spec, tables and inputs, reading
yields the expected bodies - a present stored withdrawals list and empty
ommers for the post-fork header, stored ommers and no withdrawals list for
the pre-fork header - and the claim theorem applies. -/
theorem C9_read_block_bodies_witness :
    read_block_bodies specW9 tblW9 inputsW9 =
        .ok
          [{ transactions := [7, 8], ommers := [], withdrawals := some [5] },
            { transactions := [9], ommers := [{ number := 1, timestamp := 1 }],
              withdrawals := none }] ∧
      [({ transactions := [7, 8], ommers := [], withdrawals := some [5] } : BlockBodyM Nat Nat),
          { transactions := [9], ommers := [{ number := 1, timestamp := 1 }],
            withdrawals := none }].length = inputsW9.length := by
  have hok : read_block_bodies specW9 tblW9 inputsW9 =
      .ok
        [{ transactions := [7, 8], ommers := [], withdrawals := some [5] },
          { transactions := [9], ommers := [{ number := 1, timestamp := 1 }],
            withdrawals := none }] := by
    simp [read_block_bodies, specW9, tblW9, inputsW9]
  exact ⟨hok, (C9_read_block_bodies specW9 tblW9 inputsW9 _ hok).1.1⟩

theorem write_single_withdrawals {T W : Type} (tbl : BodyTables W) (n : Nat)
    (b : BlockBodyM T W) :
    (write_block_bodies tbl [(n, some b)]).withdrawals =
      match b.withdrawals with
      | some ws => if ws.isEmpty then tbl.withdrawals else tableInsert tbl.withdrawals n ws
      | none => tbl.withdrawals := by
  cases hbw : b.withdrawals with
  | none =>
    simp only [write_block_bodies, hbw]
    split <;> rfl
  | some ws =>
    simp only [write_block_bodies, hbw]
    split <;> split <;> rfl

theorem write_single_ommers {T W : Type} (tbl : BodyTables W) (n : Nat)
    (b : BlockBodyM T W) :
    (write_block_bodies tbl [(n, some b)]).ommers =
      (if b.ommers.isEmpty then tbl.ommers else tableInsert tbl.ommers n b.ommers) := by
  cases hbw : b.withdrawals with
  | none =>
    simp only [write_block_bodies, hbw]
    split <;> rfl
  | some ws =>
    simp only [write_block_bodies, hbw]
    split <;> split <;> rfl

theorem read_single {T W : Type} (spec : ChainSpecM) (tbl' : BodyTables W)
    (hdr : HeaderM) (txs : List T) (o : Option (List W))
    (hsh : spec.is_shanghai_active_at_timestamp hdr.timestamp = true)
    (hpa : spec.is_paris_active_at_block hdr.number = true)
    (hw : tbl'.withdrawals hdr.number = .ok o) :
    read_block_bodies spec tbl' [(hdr, txs)] =
      .ok [{ transactions := txs, ommers := [], withdrawals := some (o.getD []) }] := by
  rw [read_block_bodies]
  simp [hsh, hpa, hw, read_block_bodies]

/-- Claim C10: `write_block_bodies` persists nothing for a `None` body and
never persists an empty ommers or empty/absent withdrawals list; for a
post-Shanghai (and post-Paris) block, writing its body and reading it back
yields a present withdrawals list with the written content (`getD []` of
the optional list), and a body written with empty or absent withdrawals is
indistinguishable on read from a block never written - both read back as a
present-but-empty withdrawals list. -/
theorem C10_write_read_roundtrip {T W : Type} (spec : ChainSpecM) (tbl : BodyTables W)
    (n : Nat) (hdr : HeaderM) (txs : List T) (b : BlockBodyM T W)
    (hn : hdr.number = n)
    (hsh : spec.is_shanghai_active_at_timestamp hdr.timestamp = true)
    (hpa : spec.is_paris_active_at_block n = true)
    (hfresh : tbl.withdrawals n = .ok none) :
    (∀ (n' : Nat) (rest : List (Nat × Option (BlockBodyM T W))),
        write_block_bodies tbl ((n', none) :: rest) = write_block_bodies tbl rest) ∧
      (b.ommers = [] →
        (write_block_bodies tbl [(n, some b)]).ommers = tbl.ommers) ∧
      ((b.withdrawals = none ∨ b.withdrawals = some []) →
        (write_block_bodies tbl [(n, some b)]).withdrawals = tbl.withdrawals) ∧
      read_block_bodies spec (write_block_bodies tbl [(n, some b)]) [(hdr, txs)] =
        .ok
          [{ transactions := txs, ommers := [], withdrawals := some (b.withdrawals.getD []) }] ∧
      ((b.withdrawals = none ∨ b.withdrawals = some []) →
        read_block_bodies spec (write_block_bodies tbl [(n, some b)]) [(hdr, txs)] =
          read_block_bodies spec tbl [(hdr, txs)] ∧
        read_block_bodies spec tbl [(hdr, txs)] =
          .ok [{ transactions := txs, ommers := [], withdrawals := some ([] : List W) }]) := by
  subst hn
  have hWw := write_single_withdrawals tbl hdr.number b
  have hbase := read_single spec tbl hdr txs none hsh hpa hfresh
  have hlookup : ∀ o : Option (List W),
      (write_block_bodies tbl [(hdr.number, some b)]).withdrawals hdr.number = .ok o →
      read_block_bodies spec (write_block_bodies tbl [(hdr.number, some b)]) [(hdr, txs)] =
        .ok [{ transactions := txs, ommers := [], withdrawals := some (o.getD []) }] :=
    fun o ho => read_single spec _ hdr txs o hsh hpa ho
  refine ⟨fun n' rest => rfl, ?_, ?_, ?_, ?_⟩
  · intro hom
    rw [write_single_ommers tbl hdr.number b, hom]
    simp
  · intro hw
    rw [hWw]
    rcases hw with hw | hw <;> rw [hw]
    simp
  · cases hbw : b.withdrawals with
    | none =>
      have hW : (write_block_bodies tbl [(hdr.number, some b)]).withdrawals hdr.number =
          .ok none := by
        rw [hWw, hbw]
        exact hfresh
      simpa [hbw] using hlookup none hW
    | some ws =>
      rcases List.eq_nil_or_concat ws with hws | hws
      · subst hws
        have hW : (write_block_bodies tbl [(hdr.number, some b)]).withdrawals hdr.number =
            .ok none := by
          rw [hWw, hbw]
          simp
          exact hfresh
        simpa [hbw] using hlookup none hW
      · have hne : ws ≠ [] := by
          obtain ⟨l2, a, rfl⟩ := hws
          simp
        have hie : ws.isEmpty = false := by
          cases ws
          · simp at hne
          · rfl
        have hW : (write_block_bodies tbl [(hdr.number, some b)]).withdrawals hdr.number =
            .ok (some ws) := by
          rw [hWw, hbw]
          simp [hie, tableInsert]
        simpa [hbw] using hlookup (some ws) hW
  · intro hw
    have hWtbl : (write_block_bodies tbl [(hdr.number, some b)]).withdrawals =
        tbl.withdrawals := by
      rw [hWw]
      rcases hw with hw | hw <;> rw [hw]
      simp
    have hW : (write_block_bodies tbl [(hdr.number, some b)]).withdrawals hdr.number =
        .ok none := by rw [hWtbl]; exact hfresh
    refine ⟨?_, by simpa using hbase⟩
    rw [hlookup none hW]
    simpa using hbase.symm

/-- Claim C10 witness: writing body `bodyW10` (nonempty ommers and
withdrawals `[9, 9]`) for the fresh post-fork block 20 and reading it back
yields transactions preserved, empty ommers, and the written withdrawals
list. -/
theorem C10_write_read_roundtrip_witness :
    tblW9.withdrawals 20 = .ok none ∧
      specW9.is_shanghai_active_at_timestamp 200 = true ∧
      specW9.is_paris_active_at_block 20 = true ∧
      read_block_bodies specW9 (write_block_bodies tblW9 [(20, some bodyW10)])
          [({ number := 20, timestamp := 200 }, [4])] =
        .ok [{ transactions := [4], ommers := [], withdrawals := some [9, 9] }] := by
  refine ⟨rfl, rfl, rfl, ?_⟩
  have h := (C10_write_read_roundtrip specW9 tblW9 20 { number := 20, timestamp := 200 }
    [4] bodyW10 rfl rfl rfl rfl).2.2.2.1
  simpa [bodyW10] using h

end ChainStorage
